import Mathlib

/-!
Verification development for the KLineChart viewport and data coordination
engine (`src/Store.ts`).  JavaScript numbers are modelled as rationals
(`ℚ`) except where the source uses the transcendental `Math.atan`, which is
modelled over `ℝ`.  `Math.floor` is `Int.floor`, `Math.ceil` is `Int.ceil`,
and `Math.round` is `fun q => ⌊q + 1/2⌋`, which agrees with the JavaScript
semantics of rounding half away from negative infinity.
-/

namespace KLineChart

/-- JavaScript `Math.round`: round half up, i.e. `⌊q + 1/2⌋`. -/
def jsRound (q : ℚ) : ℤ := ⌊q + 1/2⌋

/-- Rounding to six decimal places, as in `coordinateToFloatIndex`:
`Math.round(index * 1000000) / 1000000`. -/
def jsRound6 (q : ℚ) : ℚ := (jsRound (q * 1000000) : ℚ) / 1000000

/-- Visible range record.  The source fields are `from`, `to`, `realFrom`,
`realTo`; `from`/`to` are Lean keywords so they are named `fromIdx`/`toIdx`
here. -/
structure VisibleRange where
  fromIdx : ℤ
  toIdx : ℤ
  realFrom : ℤ
  realTo : ℤ
deriving DecidableEq

/-- Modelled from the spec: `getDefaultVisibleRange` (in
`common/VisibleRange`, not under `src/`) produces the default empty range a
cleared store falls back to; the spec says clearing wipes derived state
back to defaults, and the invariant `0 ≤ from ≤ to ≤ dataCount` forces the
empty range on an empty data list. -/
def defaultVisibleRange : VisibleRange := ⟨0, 0, 0, 0⟩

/-- One bar of the data window (`KLineData`).  Only the fields the claims
touch are modelled; `open` is a Lean keyword so it is `openPrice`. -/
structure KLineData where
  timestamp : ℤ
  openPrice : ℚ
  closePrice : ℚ
deriving DecidableEq

/-- Scroll limit role (`ScrollLimitRole` enum in the source). -/
inductive ScrollLimitRole where
  | BarCount
  | Distance
deriving DecidableEq

/-- Load kind (`LoadDataType` in `common/LoadDataCallback`). -/
inductive LoadDataType where
  | Init
  | Forward
  | Backward
  | Update
deriving DecidableEq

/-- Observable side effects of a store mutation: the visible-range action,
chart layout requests, pagination requests through the load-more callback,
and the scroll/zoom actions with their realized payloads. -/
inductive ChartEvent where
  | visibleRangeChange (vr : VisibleRange)
  | layout
  | loadRequest (t : LoadDataType)
  | zoomed (scale : ℚ)
  | scrolled (distance : ℤ)
deriving DecidableEq

/-- Crosshair state: the raw x coordinate plus the derived fields
`realX`, `dataIndex`, `realDataIndex` recomputed by `setCrosshair`. -/
structure CrosshairInfo where
  x : Option ℚ
  realX : ℤ
  dataIndex : ℤ
  realDataIndex : ℤ
deriving DecidableEq

/-- The store state (the `Store` class fields the claims depend on).
`gapBarSpace` is derived from `barSpace` alone through `Math.atan`
(see `calcOptimalBarSpace`, modelled over `ℝ`) and influences no other
field, so it is kept out of this rational-valued record. -/
structure Store where
  dataList : List KLineData
  loading : Bool
  hasLoadMoreDataCallback : Bool
  loadDataMoreForward : Bool
  loadDataMoreBackward : Bool
  zoomEnabled : Bool
  scrollEnabled : Bool
  totalBarSpace : ℚ
  barSpace : ℚ
  offsetRightDistance : ℚ
  lastBarRightSideDiffBarCount : ℚ
  startLastBarRightSideDiffBarCount : ℚ
  scrollLimitRole : ScrollLimitRole
  minVisibleBarCountLeft : ℚ
  minVisibleBarCountRight : ℚ
  maxOffsetDistanceLeft : ℚ
  maxOffsetDistanceRight : ℚ
  visibleRange : VisibleRange
  cacheVisibleRange : VisibleRange
  crosshair : CrosshairInfo
deriving DecidableEq

/-- `coordinateToFloatIndex(x)`: inverse coordinate transform, rounded to
six decimals. -/
def coordinateToFloatIndex (st : Store) (x : ℚ) : ℚ :=
  let dataCount : ℤ := st.dataList.length
  let deltaFromRight : ℚ := (st.totalBarSpace - x) / st.barSpace
  jsRound6 ((dataCount : ℚ) + st.lastBarRightSideDiffBarCount - deltaFromRight)

/-- `dataIndexToCoordinate(i)`: forward coordinate transform producing an
integer pixel. -/
def dataIndexToCoordinate (st : Store) (dataIndex : ℤ) : ℤ :=
  let dataCount : ℤ := st.dataList.length
  let deltaFromRight : ℚ := (dataCount : ℚ) + st.lastBarRightSideDiffBarCount - (dataIndex : ℚ)
  ⌊st.totalBarSpace - (deltaFromRight - 1/2) * st.barSpace + 1/2⌋

/-- The forward transform as the spec states it:
`floor(totalBarSpace − (dataCount + diffBarCount − i − 0.5) * barSpace + 0.5)`.
Stated from the words of the spec for refinement comparison with
`dataIndexToCoordinate`. -/
def specDataIndexToCoordinate (st : Store) (i : ℤ) : ℤ :=
  ⌊st.totalBarSpace -
    ((st.dataList.length : ℚ) + st.lastBarRightSideDiffBarCount - (i : ℚ) - 1/2) * st.barSpace
    + 1/2⌋

/-- `coordinateToDataIndex(x)`: `ceil(floatIndex) − 1`. -/
def coordinateToDataIndex (st : Store) (x : ℚ) : ℤ :=
  ⌈coordinateToFloatIndex st x⌉ - 1

/-- Left minimum visible bar count used by `_adjustVisibleRange`, already
clamped to be nonnegative (`Math.max(0, ...)`). -/
def leftMinBarCount (st : Store) : ℚ :=
  max 0 (match st.scrollLimitRole with
    | ScrollLimitRole.Distance => (st.totalBarSpace - st.maxOffsetDistanceRight) / st.barSpace
    | ScrollLimitRole.BarCount => st.minVisibleBarCountLeft)

/-- Right minimum visible bar count used by `_adjustVisibleRange`, clamped
to be nonnegative. -/
def rightMinBarCount (st : Store) : ℚ :=
  max 0 (match st.scrollLimitRole with
    | ScrollLimitRole.Distance => (st.totalBarSpace - st.maxOffsetDistanceLeft) / st.barSpace
    | ScrollLimitRole.BarCount => st.minVisibleBarCountRight)

/-- `maxRightOffsetBarCount` from `_adjustVisibleRange`. -/
def maxRightOffsetBarCount (st : Store) : ℚ :=
  st.totalBarSpace / st.barSpace - min (leftMinBarCount st) (st.dataList.length : ℚ)

/-- `minRightOffsetBarCount` from `_adjustVisibleRange`. -/
def minRightOffsetBarCount (st : Store) : ℚ :=
  -(st.dataList.length : ℚ) + min (rightMinBarCount st) (st.dataList.length : ℚ)

/-- The two clamping steps `_adjustVisibleRange` applies to
`lastBarRightSideDiffBarCount`: first against the maximum right offset,
then against the minimum. -/
def clampDiff (st : Store) : ℚ :=
  let d1 := if maxRightOffsetBarCount st < st.lastBarRightSideDiffBarCount
    then maxRightOffsetBarCount st else st.lastBarRightSideDiffBarCount
  if d1 < minRightOffsetBarCount st then minRightOffsetBarCount st else d1

/-- The visible range computed by `_adjustVisibleRange` from the clamped
offset `d2`:
`to = round(d2 + dataCount + 0.5)` clamped to `dataCount`,
`from = round(to − visibleBarCount) − 1` clamped to `0`, with the
unclamped `realFrom`/`realTo` kept alongside. -/
def computeVisibleRange (st : Store) (d2 : ℚ) : VisibleRange :=
  let totalBarCount : ℤ := st.dataList.length
  let visibleBarCount : ℚ := st.totalBarSpace / st.barSpace
  let toRaw : ℤ := jsRound (d2 + (totalBarCount : ℚ) + 1/2)
  let toI : ℤ := if totalBarCount < toRaw then totalBarCount else toRaw
  let from0 : ℤ := jsRound ((toI : ℚ) - visibleBarCount) - 1
  let fromI : ℤ := if from0 < 0 then 0 else from0
  let realFrom : ℤ :=
    if 0 < d2 then jsRound ((totalBarCount : ℚ) + d2 - visibleBarCount) - 1 else fromI
  ⟨fromI, toI, realFrom, toRaw⟩

/-- `_adjustVisibleRange`: clamps the right-side offset, recomputes the
visible range, fires the visible-range action, updates the cached range,
and issues at most one pagination request when the clamped range touches a
data edge, the matching more-flag is set, no load is in flight and a load
callback is registered. -/
def adjustVisibleRange (st : Store) : Store × List ChartEvent :=
  let d2 := clampDiff st
  let vr := computeVisibleRange st d2
  let st1 : Store :=
    { st with
      lastBarRightSideDiffBarCount := d2
      visibleRange := vr
      cacheVisibleRange :=
        if st.cacheVisibleRange.fromIdx = vr.fromIdx ∧ st.cacheVisibleRange.toIdx = vr.toIdx
        then st.cacheVisibleRange else vr }
  let pg :=
    if st1.loading = false ∧ st1.hasLoadMoreDataCallback = true then
      if vr.fromIdx = 0 then
        if st1.loadDataMoreForward = true then
          ({ st1 with loading := true }, [ChartEvent.loadRequest LoadDataType.Forward])
        else (st1, ([] : List ChartEvent))
      else if vr.toIdx = (st1.dataList.length : ℤ) then
        if st1.loadDataMoreBackward = true then
          ({ st1 with loading := true }, [ChartEvent.loadRequest LoadDataType.Backward])
        else (st1, [])
      else (st1, [])
    else (st1, [])
  (pg.1, ChartEvent.visibleRangeChange vr :: pg.2)

/-- `setCrosshair(this._crosshair, true)` as used internally after every
structural change: recomputes the derived crosshair fields from the stored
x coordinate without moving it; since the point itself is unchanged no
crosshair-change callback or repaint fires. -/
def setCrosshairRefresh (st : Store) : Store :=
  match st.crosshair.x with
  | some cx =>
    let realDataIndex := coordinateToDataIndex st cx
    let dataIndex :=
      if realDataIndex < 0 then 0
      else if (st.dataList.length : ℤ) - 1 < realDataIndex then (st.dataList.length : ℤ) - 1
      else realDataIndex
    { st with crosshair :=
        ⟨st.crosshair.x, dataIndexToCoordinate st realDataIndex, dataIndex, realDataIndex⟩ }
  | none =>
    let realDataIndex := (st.dataList.length : ℤ) - 1
    { st with crosshair :=
        ⟨none, dataIndexToCoordinate st realDataIndex, realDataIndex, realDataIndex⟩ }

/-- `setBarSpace(barSpace, adjustBeforeFunc?)`: silent no-op outside
`[1,50]` or when unchanged; otherwise installs the new spacing (the gap
recomputation `_calcOptimalBarSpace` touches only the gap, modelled by
`calcOptimalBarSpace`), runs the optional adjust-before callback,
re-derives the visible range, refreshes the crosshair and requests a
layout. -/
def setBarSpace (st : Store) (barSpace : ℚ) (adjustBefore : Store → Store) :
    Store × List ChartEvent :=
  if barSpace < 1 ∨ 50 < barSpace ∨ st.barSpace = barSpace then (st, [])
  else
    let st1 : Store := { st with barSpace := barSpace }
    let st2 := adjustBefore st1
    let r := adjustVisibleRange st2
    (setCrosshairRefresh r.1, r.2 ++ [ChartEvent.layout])

/-- `setTotalBarSpace(totalSpace)`: update the drawing-area width and
re-derive the range when it actually changed. -/
def setTotalBarSpace (st : Store) (totalSpace : ℚ) : Store × List ChartEvent :=
  if st.totalBarSpace = totalSpace then (st, [])
  else
    let r := adjustVisibleRange { st with totalBarSpace := totalSpace }
    (setCrosshairRefresh r.1, r.2)

/-- `setOffsetRightDistance(distance, isUpdate?)`: stores the (possibly
distance-clamped) offset and re-derives the right-side bar-count offset
from it; the full re-adjustment only happens when `isUpdate` is set. -/
def setOffsetRightDistance (st : Store) (distance : ℚ) (isUpdate : Bool) :
    Store × List ChartEvent :=
  let dist := match st.scrollLimitRole with
    | ScrollLimitRole.Distance => min st.maxOffsetDistanceRight distance
    | ScrollLimitRole.BarCount => distance
  let st1 : Store :=
    { st with offsetRightDistance := dist, lastBarRightSideDiffBarCount := dist / st.barSpace }
  if isUpdate then
    let r := adjustVisibleRange st1
    (setCrosshairRefresh r.1, r.2 ++ [ChartEvent.layout])
  else (st1, [])

/-- `startScroll()`: capture the scroll start offset. -/
def startScroll (st : Store) : Store :=
  { st with startLastBarRightSideDiffBarCount := st.lastBarRightSideDiffBarCount }

/-- `scroll(distance)`: translate the pixel distance into a bar-count
offset from the captured start, re-derive the range, and report the
realized pixel distance if nonzero. -/
def scroll (st : Store) (distance : ℚ) : Store × List ChartEvent :=
  if st.scrollEnabled = false then (st, [])
  else
    let distanceBarCount := distance / st.barSpace
    let prevLastBarRightSideDistance := st.lastBarRightSideDiffBarCount * st.barSpace
    let st1 : Store :=
      { st with lastBarRightSideDiffBarCount :=
          st.startLastBarRightSideDiffBarCount - distanceBarCount }
    let r := adjustVisibleRange st1
    let st3 := setCrosshairRefresh r.1
    let realDistance : ℤ :=
      jsRound (prevLastBarRightSideDistance - st3.lastBarRightSideDiffBarCount * st3.barSpace)
    if realDistance ≠ 0 then
      (st3, r.2 ++ [ChartEvent.layout, ChartEvent.scrolled realDistance])
    else (st3, r.2 ++ [ChartEvent.layout])

/-- The intermediate state `zoom` builds before `_adjustVisibleRange` runs:
the new bar space is installed and the adjust-before callback shifts the
right-side offset by the float-index drift of the anchor pixel. -/
def zoomIntermediate (st : Store) (scale : ℚ) (x : ℚ) : Store :=
  let floatIndex := coordinateToFloatIndex st x
  let barSpace := st.barSpace + scale * (st.barSpace / 10)
  let st1 : Store := { st with barSpace := barSpace }
  { st1 with lastBarRightSideDiffBarCount :=
      st1.lastBarRightSideDiffBarCount + (floatIndex - coordinateToFloatIndex st1 x) }

/-- `zoom(scale, coordinate?)`: anchor at the given x (falling back to the
crosshair x or the viewport centre), delegate to `setBarSpace` with an
adjust-before callback that keeps the anchor float index fixed, and report
the realized scale when it is not exactly 1. -/
def zoom (st : Store) (scale : ℚ) (coordinate : Option ℚ) : Store × List ChartEvent :=
  if st.zoomEnabled = false then (st, [])
  else
    let x : ℚ := match coordinate with
      | some cx => cx
      | none => match st.crosshair.x with
        | some cx => cx
        | none => st.totalBarSpace / 2
    let floatIndex := coordinateToFloatIndex st x
    let prevBarSpace := st.barSpace
    let barSpace := st.barSpace + scale * (st.barSpace / 10)
    let r := setBarSpace st barSpace (fun s2 =>
      { s2 with lastBarRightSideDiffBarCount :=
          s2.lastBarRightSideDiffBarCount + (floatIndex - coordinateToFloatIndex s2 x) })
    let realScale := r.1.barSpace / prevBarSpace
    if realScale ≠ 1 then (r.1, r.2 ++ [ChartEvent.zoomed realScale]) else (r.1, r.2)

/-- `clear()`: wipe the data window and all derived state back to
defaults. -/
def clear (st : Store) : Store :=
  { st with
    loadDataMoreForward := false
    loadDataMoreBackward := false
    loading := true
    dataList := []
    visibleRange := defaultVisibleRange
    cacheVisibleRange := defaultVisibleRange
    crosshair := ⟨none, 0, 0, 0⟩ }

/-- The single-bar branch of `addData` (upsert): append when the new
timestamp is strictly greater than the last one (decrementing a negative
right offset to keep the viewport anchored), replace the last bar in place
when equal, and reject otherwise.  Returns the updated state together with
the `success` and `adjustFlag` booleans of the source. -/
def addDataSingle (st : Store) (data : KLineData) : Store × Bool × Bool :=
  let dataCount := st.dataList.length
  let lastDataTimestamp : ℤ := match st.dataList.getLast? with
    | some last => last.timestamp
    | none => 0
  if lastDataTimestamp < data.timestamp then
    let st1 : Store := { st with dataList := st.dataList ++ [data] }
    let d := st1.lastBarRightSideDiffBarCount
    let st2 := if d < 0 then { st1 with lastBarRightSideDiffBarCount := d - 1 } else st1
    (st2, true, true)
  else if data.timestamp = lastDataTimestamp then
    ({ st with dataList := st.dataList.set (dataCount - 1) data }, true, true)
  else (st, false, false)

/-- The data-window mutation of `addData`: array pages replace, append or
prepend the window and update the continuation flags (`Init` copies
`more.forward` into both flags); a single bar goes through
`addDataSingle`.  Returns the mutated state with the `success` and
`adjustFlag` booleans of the source. -/
def addDataStep (st : Store) (data : KLineData ⊕ List KLineData) (type : LoadDataType)
    (more : Option (Bool × Bool)) : Store × Bool × Bool :=
  let moreForward := match more with | some m => m.1 | none => false
  let moreBackward := match more with | some m => m.2 | none => false
  match data with
    | Sum.inr list =>
      let st2 : Store :=
        match type with
        | LoadDataType.Init =>
          let stc := clear st
          let stc : Store :=
            { stc with
              dataList := list
              loadDataMoreBackward := moreForward
              loadDataMoreForward := moreForward }
          (setOffsetRightDistance stc stc.offsetRightDistance false).1
        | LoadDataType.Backward =>
          { st with dataList := st.dataList ++ list, loadDataMoreBackward := moreBackward }
        | LoadDataType.Forward =>
          { st with dataList := list ++ st.dataList, loadDataMoreForward := moreForward }
        | LoadDataType.Update => st
      let adjustFlag : Bool :=
        match type with
        | LoadDataType.Init => true
        | LoadDataType.Backward => decide (0 < list.length)
        | LoadDataType.Forward => decide (0 < list.length)
        | LoadDataType.Update => false
      ({ st2 with loading := false }, true, adjustFlag)
    | Sum.inl bar => addDataSingle st bar

/-- `addData(data, type, more?)`: run the data-window mutation
(`addDataStep`) and, on success with a structural change, re-derive the
visible range, refresh the crosshair in place and request a layout. -/
def addData (st : Store) (data : KLineData ⊕ List KLineData) (type : LoadDataType)
    (more : Option (Bool × Bool)) : Store × List ChartEvent :=
  let step := addDataStep st data type more
  if step.2.1 then
    if step.2.2 then
      let r := adjustVisibleRange step.1
      (setCrosshairRefresh r.1, r.2 ++ [ChartEvent.layout])
    else (step.1, [])
  else (step.1, [])

/-- The range invariant of claim C1: `0 ≤ from ≤ to ≤ dataCount`. -/
def rangeInvariant (st : Store) : Prop :=
  0 ≤ st.visibleRange.fromIdx ∧
    st.visibleRange.fromIdx ≤ st.visibleRange.toIdx ∧
    st.visibleRange.toIdx ≤ (st.dataList.length : ℤ)

instance (st : Store) : Decidable (rangeInvariant st) := by
  unfold rangeInvariant; infer_instance

/-- A concrete store mirroring the constructor defaults of the source
(`barSpace = 10`, `offsetRightDistance = 80`, bar-count scroll limits of 2,
max offset distances of 50, empty data list). -/
def sampleStore : Store :=
  { dataList := []
    loading := true
    hasLoadMoreDataCallback := false
    loadDataMoreForward := false
    loadDataMoreBackward := false
    zoomEnabled := true
    scrollEnabled := true
    totalBarSpace := 0
    barSpace := 10
    offsetRightDistance := 80
    lastBarRightSideDiffBarCount := 8
    startLastBarRightSideDiffBarCount := 0
    scrollLimitRole := ScrollLimitRole.BarCount
    minVisibleBarCountLeft := 2
    minVisibleBarCountRight := 2
    maxOffsetDistanceLeft := 50
    maxOffsetDistanceRight := 50
    visibleRange := defaultVisibleRange
    cacheVisibleRange := defaultVisibleRange
    crosshair := ⟨none, 0, 0, 0⟩ }

/-- The easing ratio of `_calcOptimalBarSpace`:
`1 − BAR_GAP_RATIO · atan(max(4, barSpace) − 4) / (π · 0.5)` with
`BAR_GAP_RATIO = 0.2`.  `Math.atan` forces this fragment of the model into
`ℝ`. -/
noncomputable def calcOptimalRatio (s : ℝ) : ℝ :=
  1 - 0.2 * Real.arctan (max 4 s - 4) / (Real.pi * 0.5)

/-- The gap before the parity adjustment:
`min(floor(barSpace * ratio), floor(barSpace))`. -/
noncomputable def calcGapBase (s : ℝ) : ℤ :=
  min ⌊s * calcOptimalRatio s⌋ ⌊s⌋

/-- `_calcOptimalBarSpace`: the gap bar space derived from the bar space;
the decrement fires only when the base gap is even and within two pixels
of the bar space, and the result is clamped to at least 1. -/
noncomputable def calcOptimalBarSpace (s : ℝ) : ℤ :=
  let g := calcGapBase s
  let g2 := if g % 2 = 0 ∧ s ≤ (g : ℝ) + 2 then g - 1 else g
  max 1 g2

/-- A time tick candidate (`TimeTick` in the source); only the fields the
label-subset selection reads are modelled. -/
structure TimeTick where
  weight : ℤ
  dataIndex : ℤ
  timestamp : ℤ
deriving DecidableEq

/-- The left-neighbor admission test of
`_adjustVisibleRangeTimeTickList`: `currentIndex − leftIndex ≥ barCount`,
where `none` stands for the initial `leftIndex = -Infinity`. -/
def leftOkB (bc : ℤ) (left : Option ℤ) (c : ℤ) : Bool :=
  match left with
  | none => true
  | some l => decide (l + bc ≤ c)

/-- One pass of the merge loop in `_adjustVisibleRangeTimeTickList`:
`prev` is the running merged list from the coarser weights (drained
unconditionally in index order), `cur` the current finer bucket (each tick
admitted only when at least `bc` indices from the last pushed tick and
from the next coarser tick to its right), and `left` the index of the last
pushed tick. -/
def mergePass (bc : ℤ) : List TimeTick → List TimeTick → Option ℤ → List TimeTick
  | prev, [], _ => prev
  | [], c :: cs, left =>
    if leftOkB bc left c.dataIndex then
      c :: mergePass bc [] cs (some c.dataIndex)
    else
      mergePass bc [] cs left
  | p :: ps, c :: cs, left =>
    if p.dataIndex < c.dataIndex then
      p :: mergePass bc ps (c :: cs) (some p.dataIndex)
    else if bc ≤ p.dataIndex - c.dataIndex ∧ leftOkB bc left c.dataIndex = true then
      c :: mergePass bc (p :: ps) cs (some c.dataIndex)
    else
      mergePass bc (p :: ps) cs left
termination_by prev cur _ => prev.length + cur.length
decreasing_by
  all_goals simp [List.length_cons]

/-- The minimum bar-count spacing of `_adjustVisibleRangeTimeTickList`:
`ceil(max(ceil(totalBarSpace / 10), textWidth) / barSpace)`, where
`textWidth` is the pixel width of the `0000-00-00 00:00` template measured
by the canvas (an external input, passed as a parameter). -/
def timeTickBarCount (totalBarSpace : ℚ) (textWidth : ℤ) (barSpace : ℚ) : ℤ :=
  ⌈((max ⌈totalBarSpace / 10⌉ textWidth : ℤ) : ℚ) / barSpace⌉

/-- The full multi-resolution merged tick list: buckets processed from the
coarsest weight to the finest, each pass starting with an unbounded left
neighbor. -/
def adjustedTimeTickList (bc : ℤ) (buckets : List (List TimeTick)) : List TimeTick :=
  buckets.foldl (fun acc bucket => mergePass bc acc bucket none) []

/-- The visible label subset: the merged list filtered to
`from ≤ dataIndex ≤ to`. -/
def visibleRangeTimeTickList (bc : ℤ) (buckets : List (List TimeTick))
    (fromIdx toIdx : ℤ) : List TimeTick :=
  (adjustedTimeTickList bc buckets).filter
    (fun tick => decide (fromIdx ≤ tick.dataIndex) && decide (tick.dataIndex ≤ toIdx))

/-- Spacing relation between two admitted ticks: the later tick sits at
least `bc` data indices to the right. -/
def tickSpaced (bc : ℤ) (a b : TimeTick) : Prop :=
  a.dataIndex + bc ≤ b.dataIndex

instance (bc : ℤ) (a b : TimeTick) : Decidable (tickSpaced bc a b) := by
  unfold tickSpaced; infer_instance

/-- Bound between the last pushed index and the head of a list: `True`
when there is no last pushed tick or the list is empty. -/
def headBound (bc : ℤ) (left : Option ℤ) (l : List TimeTick) : Prop :=
  match left, l.head? with
  | some v, some h => v + bc ≤ h.dataIndex
  | _, _ => True

/-- Modelled from the spec: `common/TaskScheduler` is not under `src/`.
Section 4.4 gives per-key registration with replace-on-resubmit semantics
for a pending (not yet started) task, and section 5 states that no
cancellation reaches an in-flight computation, which still delivers its
one completion.  The state is the queue of registered-but-not-started task
keys plus the keys currently in flight. -/
structure TaskSchedulerState where
  queued : List ℕ
  inflight : List ℕ
deriving DecidableEq

/-- Modelled from the spec: task submission for a key removes any pending
registration of the same key (supersede, never run both) and registers the
new task. -/
def addTask (ts : TaskSchedulerState) (id : ℕ) : TaskSchedulerState :=
  { ts with queued := (ts.queued.filter (fun k => k ≠ id)) ++ [id] }

/-- Modelled from the spec: the scheduler starts the first registered
task, moving it into flight, where it can no longer be superseded. -/
def startFirstTask (ts : TaskSchedulerState) : TaskSchedulerState :=
  match ts.queued with
  | [] => ts
  | k :: rest => { queued := rest, inflight := ts.inflight ++ [k] }

/-- Modelled from the spec: running the scheduler to quiescence delivers
exactly one completion notification (Ready or Error) per in-flight run and
per registered task. -/
def drainCompletions (ts : TaskSchedulerState) : List ℕ :=
  ts.inflight ++ ts.queued

/-! Helper lemmas about the JavaScript rounding functions. -/

theorem jsRound_le (q : ℚ) : (jsRound q : ℚ) ≤ q + 1/2 :=
  Int.floor_le _

theorem sub_half_lt_jsRound (q : ℚ) : q - 1/2 < (jsRound q : ℚ) := by
  have h := Int.lt_floor_add_one (q + 1/2)
  unfold jsRound
  linarith

theorem jsRound_intCast (n : ℤ) : jsRound ((n : ℚ)) = n := by
  unfold jsRound
  rw [Int.floor_int_add]
  norm_num

theorem jsRound_mono {a b : ℚ} (h : a ≤ b) : jsRound a ≤ jsRound b :=
  Int.floor_le_floor (by linarith)

/-! Projection lemmas: which store fields each operation leaves alone. -/

theorem adjustVisibleRange_visibleRange (st : Store) :
    (adjustVisibleRange st).1.visibleRange = computeVisibleRange st (clampDiff st) := by
  simp only [adjustVisibleRange]
  split_ifs <;> rfl

theorem adjustVisibleRange_dataList (st : Store) :
    (adjustVisibleRange st).1.dataList = st.dataList := by
  simp only [adjustVisibleRange]
  split_ifs <;> rfl

theorem adjustVisibleRange_diff (st : Store) :
    (adjustVisibleRange st).1.lastBarRightSideDiffBarCount = clampDiff st := by
  simp only [adjustVisibleRange]
  split_ifs <;> rfl

theorem adjustVisibleRange_barSpace (st : Store) :
    (adjustVisibleRange st).1.barSpace = st.barSpace := by
  simp only [adjustVisibleRange]
  split_ifs <;> rfl

theorem adjustVisibleRange_totalBarSpace (st : Store) :
    (adjustVisibleRange st).1.totalBarSpace = st.totalBarSpace := by
  simp only [adjustVisibleRange]
  split_ifs <;> rfl

theorem adjustVisibleRange_loadDataMoreForward (st : Store) :
    (adjustVisibleRange st).1.loadDataMoreForward = st.loadDataMoreForward := by
  simp only [adjustVisibleRange]
  split_ifs <;> rfl

theorem adjustVisibleRange_loadDataMoreBackward (st : Store) :
    (adjustVisibleRange st).1.loadDataMoreBackward = st.loadDataMoreBackward := by
  simp only [adjustVisibleRange]
  split_ifs <;> rfl

theorem setCrosshairRefresh_visibleRange (st : Store) :
    (setCrosshairRefresh st).visibleRange = st.visibleRange := by
  unfold setCrosshairRefresh
  cases hx : st.crosshair.x <;> simp [hx]

theorem setCrosshairRefresh_dataList (st : Store) :
    (setCrosshairRefresh st).dataList = st.dataList := by
  unfold setCrosshairRefresh
  cases hx : st.crosshair.x <;> simp [hx]

theorem setCrosshairRefresh_barSpace (st : Store) :
    (setCrosshairRefresh st).barSpace = st.barSpace := by
  unfold setCrosshairRefresh
  cases hx : st.crosshair.x <;> simp [hx]

theorem setCrosshairRefresh_totalBarSpace (st : Store) :
    (setCrosshairRefresh st).totalBarSpace = st.totalBarSpace := by
  unfold setCrosshairRefresh
  cases hx : st.crosshair.x <;> simp [hx]

theorem setCrosshairRefresh_diff (st : Store) :
    (setCrosshairRefresh st).lastBarRightSideDiffBarCount =
      st.lastBarRightSideDiffBarCount := by
  unfold setCrosshairRefresh
  cases hx : st.crosshair.x <;> simp [hx]

theorem setCrosshairRefresh_loadDataMoreForward (st : Store) :
    (setCrosshairRefresh st).loadDataMoreForward = st.loadDataMoreForward := by
  unfold setCrosshairRefresh
  cases hx : st.crosshair.x <;> simp [hx]

theorem setCrosshairRefresh_loadDataMoreBackward (st : Store) :
    (setCrosshairRefresh st).loadDataMoreBackward = st.loadDataMoreBackward := by
  unfold setCrosshairRefresh
  cases hx : st.crosshair.x <;> simp [hx]

/-! Facts about the offset clamping of `_adjustVisibleRange`. -/

theorem minRightOffsetBarCount_ge (st : Store) :
    -(st.dataList.length : ℚ) ≤ minRightOffsetBarCount st := by
  unfold minRightOffsetBarCount rightMinBarCount
  have h : (0:ℚ) ≤ min (max 0 (match st.scrollLimitRole with
      | ScrollLimitRole.Distance => (st.totalBarSpace - st.maxOffsetDistanceLeft) / st.barSpace
      | ScrollLimitRole.BarCount => st.minVisibleBarCountRight)) (st.dataList.length : ℚ) :=
    le_min (le_max_left _ _) (by positivity)
  linarith

theorem clampDiff_ge (st : Store) : minRightOffsetBarCount st ≤ clampDiff st := by
  simp only [clampDiff]
  split_ifs <;> linarith

theorem clampDiff_eq {st : Store}
    (h1 : st.lastBarRightSideDiffBarCount ≤ maxRightOffsetBarCount st)
    (h2 : minRightOffsetBarCount st ≤ st.lastBarRightSideDiffBarCount) :
    clampDiff st = st.lastBarRightSideDiffBarCount := by
  unfold clampDiff
  rw [if_neg (not_lt.2 h1), if_neg (not_lt.2 h2)]

/-- Core of claim C1: the visible range derived by `_adjustVisibleRange`
from an arbitrary store state with positive bar spacing and nonnegative
drawing width satisfies `0 ≤ from ≤ to ≤ dataCount`. -/
theorem computeVisibleRange_inv (st : Store) (d2 : ℚ) (hbs : 0 < st.barSpace)
    (hts : 0 ≤ st.totalBarSpace) (hd : -(st.dataList.length : ℚ) ≤ d2) :
    0 ≤ (computeVisibleRange st d2).fromIdx ∧
      (computeVisibleRange st d2).fromIdx ≤ (computeVisibleRange st d2).toIdx ∧
      (computeVisibleRange st d2).toIdx ≤ (st.dataList.length : ℤ) := by
  have hN : (0:ℤ) ≤ (st.dataList.length : ℤ) := Int.natCast_nonneg _
  have hvbc : (0:ℚ) ≤ st.totalBarSpace / st.barSpace := div_nonneg hts hbs.le
  unfold computeVisibleRange
  simp only
  set N : ℤ := (st.dataList.length : ℤ) with hNdef
  set toRaw : ℤ := jsRound (d2 + (N : ℚ) + 1/2) with htoRawDef
  have hd2 : -((N : ℤ) : ℚ) ≤ d2 := by rw [hNdef]; push_cast; exact hd
  have htoRaw1 : 1 ≤ toRaw := by
    rw [htoRawDef]
    unfold jsRound
    rw [Int.le_floor]
    push_cast
    linarith
  set toI : ℤ := if N < toRaw then N else toRaw with htoIDef
  have htoI_le : toI ≤ N := by rw [htoIDef]; split_ifs <;> omega
  have htoI_0 : 0 ≤ toI := by rw [htoIDef]; split_ifs <;> omega
  set from0 : ℤ := jsRound ((toI : ℚ) - st.totalBarSpace / st.barSpace) - 1 with hfrom0Def
  have hfrom0 : from0 ≤ toI - 1 := by
    have h1 : jsRound ((toI : ℚ) - st.totalBarSpace / st.barSpace) ≤ jsRound ((toI : ℚ)) :=
      jsRound_mono (by linarith)
    rw [jsRound_intCast] at h1
    omega
  refine ⟨?_, ?_, ?_⟩ <;> first
  | (split_ifs <;> omega)
  | omega

theorem adjust_rangeInvariant (st : Store) (hbs : 0 < st.barSpace)
    (hts : 0 ≤ st.totalBarSpace) : rangeInvariant (adjustVisibleRange st).1 := by
  have hd : -(st.dataList.length : ℚ) ≤ clampDiff st :=
    le_trans (minRightOffsetBarCount_ge st) (clampDiff_ge st)
  have h := computeVisibleRange_inv st (clampDiff st) hbs hts hd
  unfold rangeInvariant
  rw [adjustVisibleRange_visibleRange, adjustVisibleRange_dataList]
  exact h

theorem rangeInvariant_refresh {st : Store} (h : rangeInvariant st) :
    rangeInvariant (setCrosshairRefresh st) := by
  unfold rangeInvariant at h ⊢
  rwa [setCrosshairRefresh_visibleRange, setCrosshairRefresh_dataList]

theorem rangeInvariant_adjust_refresh (st : Store) (hbs : 0 < st.barSpace)
    (hts : 0 ≤ st.totalBarSpace) :
    rangeInvariant (setCrosshairRefresh (adjustVisibleRange st).1) :=
  rangeInvariant_refresh (adjust_rangeInvariant st hbs hts)

theorem addDataStep_barSpace (st : Store) (data : KLineData ⊕ List KLineData)
    (type : LoadDataType) (more : Option (Bool × Bool)) :
    (addDataStep st data type more).1.barSpace = st.barSpace := by
  rcases data with bar | list
  · simp only [addDataStep, addDataSingle]
    split_ifs <;> rfl
  · cases type <;> simp [addDataStep, clear, setOffsetRightDistance]

theorem addDataStep_totalBarSpace (st : Store) (data : KLineData ⊕ List KLineData)
    (type : LoadDataType) (more : Option (Bool × Bool)) :
    (addDataStep st data type more).1.totalBarSpace = st.totalBarSpace := by
  rcases data with bar | list
  · simp only [addDataStep, addDataSingle]
    split_ifs <;> rfl
  · cases type <;> simp [addDataStep, clear, setOffsetRightDistance]

theorem addDataStep_inv (st : Store) (data : KLineData ⊕ List KLineData)
    (type : LoadDataType) (more : Option (Bool × Bool)) (hst : rangeInvariant st) :
    rangeInvariant (addDataStep st data type more).1 := by
  obtain ⟨h1, h2, h3⟩ := hst
  rcases data with bar | list
  · simp only [addDataStep, addDataSingle]
    split_ifs <;> unfold rangeInvariant <;> simp [List.length_append, List.length_set] <;>
      omega
  · cases type
    · unfold rangeInvariant
      simp [addDataStep, clear, setOffsetRightDistance, defaultVisibleRange]
    · unfold rangeInvariant
      simp only [addDataStep]
      simp [List.length_append]
      refine ⟨h1, h2, by omega⟩
    · unfold rangeInvariant
      simp only [addDataStep]
      simp [List.length_append]
      refine ⟨h1, h2, by omega⟩
    · unfold rangeInvariant
      simp only [addDataStep]
      exact ⟨h1, h2, h3⟩

theorem addData_rangeInvariant (st : Store) (hbs : 0 < st.barSpace)
    (hts : 0 ≤ st.totalBarSpace) (hst : rangeInvariant st)
    (data : KLineData ⊕ List KLineData) (type : LoadDataType)
    (more : Option (Bool × Bool)) :
    rangeInvariant (addData st data type more).1 := by
  have hstep := addDataStep_inv st data type more hst
  have hbs1 : 0 < (addDataStep st data type more).1.barSpace := by
    rw [addDataStep_barSpace]; exact hbs
  have hts1 : 0 ≤ (addDataStep st data type more).1.totalBarSpace := by
    rw [addDataStep_totalBarSpace]; exact hts
  unfold addData
  by_cases hc1 : (addDataStep st data type more).2.1 = true
  · by_cases hc2 : (addDataStep st data type more).2.2 = true
    · simp only [hc1, hc2, if_true]
      exact rangeInvariant_adjust_refresh _ hbs1 hts1
    · simp only [hc1, if_true, hc2, if_false, Bool.not_eq_true] at *
      simp [hc2]
      exact hstep
  · simp [hc1]
    exact hstep

/-- C1: after any mutation of the store — `_adjustVisibleRange` itself
(run at the end of every page load, scroll, zoom, bar-space change and
total-space change) as well as the full `addData` entry point for every
load kind and the single-bar upsert — the visible range satisfies
`0 ≤ from ≤ to ≤ dataCount`, provided the bar space is positive, the
drawing width nonnegative and the invariant held before the mutation (the
rejected-upsert branch leaves the state untouched). -/
theorem visibleRange_invariant (st : Store) (hbs : 0 < st.barSpace)
    (hts : 0 ≤ st.totalBarSpace) (hst : rangeInvariant st)
    (data : KLineData ⊕ List KLineData) (type : LoadDataType)
    (more : Option (Bool × Bool)) :
    rangeInvariant (adjustVisibleRange st).1 ∧
      rangeInvariant (addData st data type more).1 :=
  ⟨adjust_rangeInvariant st hbs hts,
    addData_rangeInvariant st hbs hts hst data type more⟩

/-- Witness for C1 at a concrete store: two bars loaded through `Init`
into the sample store with a 100-pixel viewport. -/
theorem visibleRange_invariant_witness :
    (0 : ℚ) < ({ sampleStore with totalBarSpace := 100 } : Store).barSpace ∧
      (0 : ℚ) ≤ ({ sampleStore with totalBarSpace := 100 } : Store).totalBarSpace ∧
      rangeInvariant ({ sampleStore with totalBarSpace := 100 } : Store) ∧
      (rangeInvariant (adjustVisibleRange { sampleStore with totalBarSpace := 100 }).1 ∧
        rangeInvariant (addData { sampleStore with totalBarSpace := 100 }
          (Sum.inr [⟨1, 9, 10⟩, ⟨2, 10, 11⟩]) LoadDataType.Init (some (false, true))).1) :=
  ⟨by norm_num [sampleStore], by norm_num [sampleStore], by decide,
    visibleRange_invariant _ (by norm_num [sampleStore]) (by norm_num [sampleStore])
      (by decide) _ _ _⟩

/-- C8: for every input bar space strictly below 1 or strictly above 50,
`setBarSpace` is a silent no-op: the returned store is the input store
unchanged in every field, and no event (layout, visible-range change,
pagination or crosshair update) is emitted, for any adjust-before
callback. -/
theorem setBarSpace_noop (st : Store) (s : ℚ) (adjustBefore : Store → Store)
    (h : s < 1 ∨ 50 < s) : setBarSpace st s adjustBefore = (st, []) := by
  unfold setBarSpace
  rcases h with h | h
  · rw [if_pos (Or.inl h)]
  · rw [if_pos (Or.inr (Or.inl h))]

/-- Witness for C8 at the concrete bar space 1/2. -/
theorem setBarSpace_noop_witness :
    ((1 : ℚ)/2 < 1 ∨ 50 < (1 : ℚ)/2) ∧
      setBarSpace sampleStore (1/2) id = (sampleStore, []) :=
  ⟨Or.inl (by norm_num), setBarSpace_noop sampleStore (1/2) id (Or.inl (by norm_num))⟩

theorem addDataStep_inl (st : Store) (bar : KLineData) (type : LoadDataType)
    (more : Option (Bool × Bool)) :
    addDataStep st (Sum.inl bar) type more = addDataSingle st bar := rfl

theorem addData_fst_dataList (st : Store) (data : KLineData ⊕ List KLineData)
    (type : LoadDataType) (more : Option (Bool × Bool)) :
    (addData st data type more).1.dataList = (addDataStep st data type more).1.dataList := by
  unfold addData
  by_cases h1 : (addDataStep st data type more).2.1 = true
  · by_cases h2 : (addDataStep st data type more).2.2 = true
    · simp [h1, h2, setCrosshairRefresh_dataList, adjustVisibleRange_dataList]
    · simp [h1, h2]
  · simp [h1]

theorem addDataSingle_gt {st : Store} {bar last : KLineData}
    (hlast : st.dataList.getLast? = some last) (hgt : last.timestamp < bar.timestamp) :
    addDataSingle st bar =
      ((if st.lastBarRightSideDiffBarCount < 0 then
          { st with
            dataList := st.dataList ++ [bar]
            lastBarRightSideDiffBarCount := st.lastBarRightSideDiffBarCount - 1 }
        else { st with dataList := st.dataList ++ [bar] }), true, true) := by
  unfold addDataSingle
  simp only [hlast]
  rw [if_pos hgt]

theorem addDataSingle_eq {st : Store} {bar last : KLineData}
    (hlast : st.dataList.getLast? = some last) (heq : bar.timestamp = last.timestamp) :
    addDataSingle st bar =
      ({ st with dataList := st.dataList.set (st.dataList.length - 1) bar }, true, true) := by
  unfold addDataSingle
  simp only [hlast]
  rw [if_neg (by omega), if_pos heq]

theorem addDataSingle_lt {st : Store} {bar last : KLineData}
    (hlast : st.dataList.getLast? = some last) (hlt : bar.timestamp < last.timestamp) :
    addDataSingle st bar = (st, false, false) := by
  unfold addDataSingle
  simp only [hlast]
  rw [if_neg (by omega), if_neg (by omega)]

/-- C3: single-bar upsert into a non-empty data window.  A strictly newer
timestamp appends the bar (the window grows by one; a negative right
offset is decremented by one inside the upsert, before the subsequent
range clamping); an exactly equal timestamp replaces the last bar in
place (window length unchanged, offset untouched); a strictly older
timestamp makes the whole `addData` call a no-op returning the unchanged
store with no events. -/
theorem single_bar_upsert (st : Store) (bar : KLineData) (type : LoadDataType)
    (more : Option (Bool × Bool)) (last : KLineData)
    (hlast : st.dataList.getLast? = some last) :
    (last.timestamp < bar.timestamp →
        (addData st (Sum.inl bar) type more).1.dataList = st.dataList ++ [bar] ∧
          (addDataSingle st bar).1.lastBarRightSideDiffBarCount =
            (if st.lastBarRightSideDiffBarCount < 0 then
              st.lastBarRightSideDiffBarCount - 1 else st.lastBarRightSideDiffBarCount)) ∧
      (bar.timestamp = last.timestamp →
        (addData st (Sum.inl bar) type more).1.dataList =
            st.dataList.set (st.dataList.length - 1) bar ∧
          (addDataSingle st bar).1.lastBarRightSideDiffBarCount =
            st.lastBarRightSideDiffBarCount) ∧
      (bar.timestamp < last.timestamp →
        addData st (Sum.inl bar) type more = (st, [])) := by
  refine ⟨fun hgt => ⟨?_, ?_⟩, fun heq => ⟨?_, ?_⟩, fun hlt => ?_⟩
  · rw [addData_fst_dataList, addDataStep_inl, addDataSingle_gt hlast hgt]
    split_ifs <;> rfl
  · rw [addDataSingle_gt hlast hgt]
    split_ifs <;> rfl
  · rw [addData_fst_dataList, addDataStep_inl, addDataSingle_eq hlast heq]
  · rw [addDataSingle_eq hlast heq]
  · unfold addData
    rw [addDataStep_inl, addDataSingle_lt hlast hlt]
    simp

/-- Witness for C3 at a concrete one-bar window, exercised on the append
branch with the concrete bars of the spec scenario. -/
theorem single_bar_upsert_witness :
    ({ sampleStore with dataList := [⟨1, 9, 10⟩] } : Store).dataList.getLast? =
        some (⟨1, 9, 10⟩ : KLineData) ∧
      (((1 : ℤ) < 2 →
          (addData { sampleStore with dataList := [⟨1, 9, 10⟩] }
              (Sum.inl ⟨2, 10, 11⟩) LoadDataType.Update none).1.dataList =
              [(⟨1, 9, 10⟩ : KLineData)] ++ [⟨2, 10, 11⟩] ∧
            (addDataSingle { sampleStore with dataList := [⟨1, 9, 10⟩] }
                ⟨2, 10, 11⟩).1.lastBarRightSideDiffBarCount =
              (if ({ sampleStore with dataList := [⟨1, 9, 10⟩] } :
                    Store).lastBarRightSideDiffBarCount < 0 then
                ({ sampleStore with dataList := [⟨1, 9, 10⟩] } :
                    Store).lastBarRightSideDiffBarCount - 1
              else ({ sampleStore with dataList := [⟨1, 9, 10⟩] } :
                    Store).lastBarRightSideDiffBarCount)) ∧
        ((2 : ℤ) = 1 →
          (addData { sampleStore with dataList := [⟨1, 9, 10⟩] }
              (Sum.inl ⟨2, 10, 11⟩) LoadDataType.Update none).1.dataList =
              [(⟨1, 9, 10⟩ : KLineData)].set 0 ⟨2, 10, 11⟩ ∧
            (addDataSingle { sampleStore with dataList := [⟨1, 9, 10⟩] }
                ⟨2, 10, 11⟩).1.lastBarRightSideDiffBarCount =
              ({ sampleStore with dataList := [⟨1, 9, 10⟩] } :
                  Store).lastBarRightSideDiffBarCount) ∧
        ((2 : ℤ) < 1 →
          addData { sampleStore with dataList := [⟨1, 9, 10⟩] }
              (Sum.inl ⟨2, 10, 11⟩) LoadDataType.Update none =
            ({ sampleStore with dataList := [⟨1, 9, 10⟩] }, []))) :=
  ⟨by decide,
    single_bar_upsert { sampleStore with dataList := [⟨1, 9, 10⟩] } ⟨2, 10, 11⟩
      LoadDataType.Update none ⟨1, 9, 10⟩ (by decide)⟩

theorem addDataStep_init_flags (st : Store) (list : List KLineData) (f b : Bool) :
    (addDataStep st (Sum.inr list) LoadDataType.Init (some (f, b))).1.loadDataMoreForward = f ∧
      (addDataStep st (Sum.inr list) LoadDataType.Init
          (some (f, b))).1.loadDataMoreBackward = f := by
  simp [addDataStep, clear, setOffsetRightDistance]

/-- C10: an `Init` load copies `more.forward` into both continuation
flags (`this._loadDataMore.backward = more?.forward ?? false` in the
source), so a caller passing `forward = false, backward = true` ends up
with both flags false and backward pagination disabled. -/
theorem init_more_flags (st : Store) (list : List KLineData) (f b : Bool) :
    (addData st (Sum.inr list) LoadDataType.Init (some (f, b))).1.loadDataMoreForward = f ∧
      (addData st (Sum.inr list) LoadDataType.Init (some (f, b))).1.loadDataMoreBackward = f := by
  have hstep := addDataStep_init_flags st list f b
  have h21 : (addDataStep st (Sum.inr list) LoadDataType.Init (some (f, b))).2.1 = true := by
    simp [addDataStep]
  have h22 : (addDataStep st (Sum.inr list) LoadDataType.Init (some (f, b))).2.2 = true := by
    simp [addDataStep]
  unfold addData
  simp only [h21, h22, if_true]
  constructor
  · rw [setCrosshairRefresh_loadDataMoreForward, adjustVisibleRange_loadDataMoreForward]
    exact hstep.1
  · rw [setCrosshairRefresh_loadDataMoreBackward, adjustVisibleRange_loadDataMoreBackward]
    exact hstep.2

/-- C5: `dataIndexToCoordinate` equals the spec formula
`floor(totalBarSpace − (dataCount + diffBarCount − i − 0.5) * barSpace + 0.5)`
on every store state and index (the function is pure, so two consecutive
calls with no state change in between return the same integer pixel by
definitional equality); on the spec scenario — a two-bar window at
`barSpace = 10` in a 200-pixel viewport with the default right offset of
8 bars — index 1 lands on pixel 115. -/
theorem dataIndexToCoordinate_formula :
    (∀ (st : Store) (i : ℤ), dataIndexToCoordinate st i = specDataIndexToCoordinate st i) ∧
      dataIndexToCoordinate
        { sampleStore with
          dataList := [⟨1, 9, 10⟩, ⟨2, 10, 11⟩]
          totalBarSpace := 200 } 1 = 115 := by
  constructor
  · intro st i
    rfl
  · simp only [dataIndexToCoordinate, sampleStore]
    norm_num

/-- Arithmetic core of the coordinate round trip: applying the inverse
transform with its 1e-6 rounding to the pixel produced by the forward
transform recovers the index exactly, for any state values, whenever
`999999 · barSpace ≥ 1000000`. -/
theorem roundtrip_core (N d T s : ℚ) (i : ℤ) (hs1 : 1 ≤ s)
    (hs3 : (1000000 : ℚ) ≤ 999999 * s) :
    ⌈jsRound6 (N + d - (T - ((⌊T - ((N + d - (i : ℚ)) - 1/2) * s + 1/2⌋ : ℤ) : ℚ)) / s)⌉ - 1
      = i := by
  have hs0 : (0 : ℚ) < s := by linarith
  set u : ℚ := T - ((N + d - (i : ℚ)) - 1/2) * s + 1/2 with hudef
  set x : ℤ := ⌊u⌋ with hxdef
  have hx1 : (x : ℚ) ≤ u := Int.floor_le u
  have hx2 : u - 1 < (x : ℚ) := by
    have h := Int.lt_floor_add_one u
    push_cast at h ⊢
    linarith
  clear_value x
  clear_value u
  set fpre : ℚ := N + d - (T - (x : ℚ)) / s with hfdef
  clear_value fpre
  have hkey : fpre = (i : ℚ) + 1/2 + (1/2 - (u - (x : ℚ))) / s := by
    rw [hfdef, hudef]
    field_simp
    ring
  have hup2 : fpre ≤ (i : ℚ) + 1 := by
    rw [hkey]
    have h1 : (1/2 - (u - (x : ℚ))) / s ≤ (1/2 : ℚ) / s := by gcongr; linarith
    have h2 : (1/2 : ℚ) / s ≤ (1/2 : ℚ) / 1 := by gcongr
    have h3 : (1/2 : ℚ) / 1 = 1/2 := by norm_num
    linarith
  have hlow : (i : ℚ) + 1/2000000 < fpre := by
    rw [hkey]
    have h1 : (-(1/2) : ℚ) / s < (1/2 - (u - (x : ℚ))) / s := by gcongr; linarith
    have h2 : (1 : ℚ) / (2 * s) ≤ 999999 / 2000000 := by
      rw [div_le_div_iff₀ (by positivity) (by norm_num)]
      linarith
    have h3 : (-(1/2) : ℚ) / s = -(1 / (2 * s)) := by
      field_simp
    linarith
  have hfloor_up : ⌊fpre * 1000000 + 1/2⌋ ≤ (i + 1) * 1000000 := by
    have h := Int.floor_lt.mpr (show fpre * 1000000 + 1/2 < (((i + 1) * 1000000 + 1 : ℤ) : ℚ)
      from by push_cast; linarith)
    omega
  have hfloor_low : i * 1000000 + 1 ≤ ⌊fpre * 1000000 + 1/2⌋ := by
    apply Int.le_floor.mpr
    push_cast
    linarith
  have hceil : ⌈jsRound6 fpre⌉ = i + 1 := by
    apply Int.ceil_eq_iff.mpr
    unfold jsRound6 jsRound
    constructor
    · rw [lt_div_iff₀ (by norm_num : (0:ℚ) < 1000000)]
      have hcast : ((i * 1000000 + 1 : ℤ) : ℚ) ≤ ((⌊fpre * 1000000 + 1/2⌋ : ℤ) : ℚ) := by
        exact_mod_cast hfloor_low
      push_cast at hcast
      push_cast
      linarith
    · rw [div_le_iff₀ (by norm_num : (0:ℚ) < 1000000)]
      have hcast : ((⌊fpre * 1000000 + 1/2⌋ : ℤ) : ℚ) ≤ (((i + 1) * 1000000 : ℤ) : ℚ) := by
        exact_mod_cast hfloor_up
      push_cast at hcast
      push_cast
      linarith
  rw [hceil]
  omega

/-- C2 (amended): for every index `i` in `[0, dataCount)` and any store
state with `barSpace` in `[1, 50]` satisfying
`999999 · barSpace ≥ 1000000` (that is, `barSpace ≥ 1.000001000001…`),
`coordinateToDataIndex (dataIndexToCoordinate i)` returns `i` exactly.
Near the lower bound `barSpace = 1` the 1e-6 rounding of
`coordinateToFloatIndex` can push the float index down to the next
integer, yielding `i − 1` (see the counterexample). -/
theorem coordinate_roundtrip (st : Store) (h1 : 1 ≤ st.barSpace) (_h2 : st.barSpace ≤ 50)
    (h3 : (1000000 : ℚ) ≤ 999999 * st.barSpace) (i : ℤ) (_hi0 : 0 ≤ i)
    (_hiN : i < (st.dataList.length : ℤ)) :
    coordinateToDataIndex st ((dataIndexToCoordinate st i : ℤ) : ℚ) = i := by
  have h := roundtrip_core ((st.dataList.length : ℤ) : ℚ) st.lastBarRightSideDiffBarCount
    st.totalBarSpace st.barSpace i h1 h3
  unfold coordinateToDataIndex coordinateToFloatIndex dataIndexToCoordinate jsRound6 jsRound
  unfold jsRound6 jsRound at h
  exact h

/-- Witness for C2 (amended) at a concrete store: ten bars, `barSpace = 2`,
`totalBarSpace = 100`, right offset `8`; index `3` round-trips exactly. -/
theorem coordinate_roundtrip_witness :
    (1 : ℚ) ≤ (2 : ℚ) ∧ (2 : ℚ) ≤ 50 ∧ (1000000 : ℚ) ≤ 999999 * 2 ∧ (0 : ℤ) ≤ 3 ∧
      (3 : ℤ) < ((({ sampleStore with
          dataList := List.replicate 10 ⟨1, 0, 0⟩
          totalBarSpace := 100
          barSpace := 2 } : Store).dataList.length : ℕ) : ℤ) ∧
      coordinateToDataIndex
          { sampleStore with
            dataList := List.replicate 10 ⟨1, 0, 0⟩
            totalBarSpace := 100
            barSpace := 2 }
          ((dataIndexToCoordinate
            { sampleStore with
              dataList := List.replicate 10 ⟨1, 0, 0⟩
              totalBarSpace := 100
              barSpace := 2 } 3 : ℤ) : ℚ) = 3 :=
  ⟨by norm_num, by norm_num, by norm_num, by norm_num, by norm_num [sampleStore],
    coordinate_roundtrip _ (by norm_num [sampleStore]) (by norm_num [sampleStore])
      (by norm_num [sampleStore]) 3 (by norm_num) (by norm_num [sampleStore])⟩

/-- C2 counterexample: at `barSpace = 1` (inside the claimed `[1,50]`
range), `totalBarSpace = 100`, a one-bar window and right offset
`1e-7`, the forward transform sends index 0 to pixel 99, but the inverse
transform returns −1, not 0: the float index 1e-7 is rounded down to 0 by
the 1e-6 rounding and `ceil(0) − 1 = −1`. -/
theorem coordinate_roundtrip_counterexample :
    (1 : ℚ) ≤ ({ sampleStore with
        dataList := [⟨1, 0, 0⟩]
        totalBarSpace := 100
        barSpace := 1
        lastBarRightSideDiffBarCount := 1/10000000 } : Store).barSpace ∧
      ({ sampleStore with
        dataList := [⟨1, 0, 0⟩]
        totalBarSpace := 100
        barSpace := 1
        lastBarRightSideDiffBarCount := 1/10000000 } : Store).barSpace ≤ 50 ∧
      dataIndexToCoordinate
        { sampleStore with
          dataList := [⟨1, 0, 0⟩]
          totalBarSpace := 100
          barSpace := 1
          lastBarRightSideDiffBarCount := 1/10000000 } 0 = 99 ∧
      coordinateToDataIndex
        { sampleStore with
          dataList := [⟨1, 0, 0⟩]
          totalBarSpace := 100
          barSpace := 1
          lastBarRightSideDiffBarCount := 1/10000000 } ((99 : ℤ) : ℚ) = -1 ∧
      (-1 : ℤ) ≠ 0 := by
  refine ⟨by norm_num, by norm_num, ?_, ?_, by norm_num⟩
  · simp only [dataIndexToCoordinate, sampleStore]
    norm_num
  · simp only [coordinateToDataIndex, coordinateToFloatIndex, jsRound6, jsRound, sampleStore]
    norm_num

/-- The 1e-6 rounding moves a value by at most half a millionth. -/
theorem abs_sub_jsRound6 (q : ℚ) : |q - jsRound6 q| ≤ 1/2000000 := by
  unfold jsRound6 jsRound
  have h1 : (⌊q * 1000000 + 1/2⌋ : ℚ) ≤ q * 1000000 + 1/2 := Int.floor_le _
  have h2 : q * 1000000 + 1/2 - 1 < (⌊q * 1000000 + 1/2⌋ : ℚ) := by
    have h := Int.lt_floor_add_one (q * 1000000 + 1/2)
    linarith
  have key : q - (⌊q * 1000000 + 1/2⌋ : ℚ)/1000000 =
      (q * 1000000 - ⌊q * 1000000 + 1/2⌋)/1000000 := by ring
  rw [key, abs_div, abs_of_pos (show (0:ℚ) < 1000000 by norm_num),
    div_le_iff₀ (show (0:ℚ) < 1000000 by norm_num)]
  rw [abs_le]
  constructor <;> linarith

/-- Rounding a multiple of 1e-6 perturbed by at most half a millionth
yields a value within one millionth of the original multiple. -/
theorem jsRound6_near (n : ℤ) (δ : ℚ) (hδ : |δ| ≤ 1/2000000) :
    |jsRound6 ((n : ℚ)/1000000 + δ) - (n : ℚ)/1000000| ≤ 1/1000000 := by
  unfold jsRound6 jsRound
  have harg : ((n : ℚ)/1000000 + δ) * 1000000 + 1/2 = (n : ℚ) + (δ * 1000000 + 1/2) := by
    ring
  rw [harg, Int.floor_int_add]
  have habs := abs_le.mp hδ
  have h0 : (0:ℚ) ≤ δ * 1000000 + 1/2 := by linarith [habs.1]
  have h1 : δ * 1000000 + 1/2 ≤ 1 := by linarith [habs.2]
  have hk0 : 0 ≤ ⌊δ * 1000000 + 1/2⌋ := Int.floor_nonneg.mpr h0
  have hk1 : ⌊δ * 1000000 + 1/2⌋ ≤ 1 := by
    have h := Int.floor_le_floor h1
    rwa [Int.floor_one] at h
  have key : ((n + ⌊δ * 1000000 + 1/2⌋ : ℤ) : ℚ)/1000000 - (n : ℚ)/1000000 =
      ((⌊δ * 1000000 + 1/2⌋ : ℤ) : ℚ)/1000000 := by push_cast; ring
  rw [key, abs_div, abs_of_pos (show (0:ℚ) < 1000000 by norm_num),
    div_le_iff₀ (show (0:ℚ) < 1000000 by norm_num)]
  have hcast : |((⌊δ * 1000000 + 1/2⌋ : ℤ) : ℚ)| ≤ 1 := by
    rw [abs_le]
    constructor
    · exact_mod_cast (by omega : (-1 : ℤ) ≤ ⌊δ * 1000000 + 1/2⌋)
    · exact_mod_cast hk1
  linarith

/-- A rounded float index is an integer multiple of 1e-6. -/
theorem jsRound6_fix (a δ : ℚ) (ha : ∃ n : ℤ, a = (n : ℚ)/1000000)
    (hδ : |δ| ≤ 1/2000000) : |jsRound6 (a + δ) - a| ≤ 1/1000000 := by
  obtain ⟨n, rfl⟩ := ha
  exact jsRound6_near n δ hδ

theorem zoomIntermediate_dataList (st : Store) (scale x : ℚ) :
    (zoomIntermediate st scale x).dataList = st.dataList := rfl

theorem zoomIntermediate_totalBarSpace (st : Store) (scale x : ℚ) :
    (zoomIntermediate st scale x).totalBarSpace = st.totalBarSpace := rfl

theorem zoomIntermediate_barSpace (st : Store) (scale x : ℚ) :
    (zoomIntermediate st scale x).barSpace = st.barSpace + scale * (st.barSpace / 10) := rfl

theorem zoomIntermediate_diff (st : Store) (scale x : ℚ) :
    (zoomIntermediate st scale x).lastBarRightSideDiffBarCount =
      st.lastBarRightSideDiffBarCount +
        (coordinateToFloatIndex st x -
          coordinateToFloatIndex { st with barSpace := st.barSpace + scale * (st.barSpace / 10) } x) :=
  rfl

/-- When zooming is enabled and the scaled bar space passes the `[1,50]`
acceptance check of `setBarSpace`, `zoom` produces exactly the
crosshair-refreshed, range-adjusted intermediate state. -/
theorem zoom_accepted (st : Store) (scale x : ℚ) (hz : st.zoomEnabled = true)
    (h1 : ¬(st.barSpace + scale * (st.barSpace / 10) < 1))
    (h2 : ¬(50 < st.barSpace + scale * (st.barSpace / 10)))
    (h3 : ¬(st.barSpace = st.barSpace + scale * (st.barSpace / 10))) :
    (zoom st scale (some x)).1 =
      setCrosshairRefresh (adjustVisibleRange (zoomIntermediate st scale x)).1 := by
  have hcond : ¬(st.barSpace + scale * (st.barSpace / 10) < 1 ∨
      50 < st.barSpace + scale * (st.barSpace / 10) ∨
      st.barSpace = st.barSpace + scale * (st.barSpace / 10)) := by
    push_neg
    exact ⟨not_lt.1 h1, not_lt.1 h2, h3⟩
  unfold zoom setBarSpace
  dsimp only
  split_ifs <;> first
  | rfl
  | (exfalso; simp_all)

/-- The inverse transform evaluated on the state after a range
re-adjustment and crosshair refresh only depends on the pre-adjustment
data list, viewport width, bar space and the clamped offset. -/
theorem c2f_refresh_adjust (st : Store) (x : ℚ) :
    coordinateToFloatIndex (setCrosshairRefresh (adjustVisibleRange st).1) x =
      jsRound6 ((((setCrosshairRefresh (adjustVisibleRange st).1).dataList.length : ℤ) : ℚ) +
        clampDiff st - (st.totalBarSpace - x) / st.barSpace) := by
  unfold coordinateToFloatIndex
  rw [setCrosshairRefresh_dataList, setCrosshairRefresh_diff, setCrosshairRefresh_barSpace,
    setCrosshairRefresh_totalBarSpace, adjustVisibleRange_diff,
    adjustVisibleRange_barSpace, adjustVisibleRange_totalBarSpace]

/-- C7 (amended): for a zoom anchored at a screen coordinate `x` with the
bar-space change accepted by `setBarSpace`, the float data index under `x`
is preserved to within one millionth — provided the offset adjusted by the
zoom callback stays inside the scroll-limit clamp bounds of
`_adjustVisibleRange`.  When the clamp fires (for example zooming out near
the data edge) the anchor index is not preserved (see the
counterexample). -/
theorem zoom_anchor (st : Store) (scale x : ℚ) (hz : st.zoomEnabled = true)
    (h1 : 1 ≤ st.barSpace + scale * (st.barSpace / 10))
    (h2 : st.barSpace + scale * (st.barSpace / 10) ≤ 50)
    (h3 : st.barSpace ≠ st.barSpace + scale * (st.barSpace / 10))
    (hcl : (zoomIntermediate st scale x).lastBarRightSideDiffBarCount ≤
        maxRightOffsetBarCount (zoomIntermediate st scale x))
    (hcr : minRightOffsetBarCount (zoomIntermediate st scale x) ≤
        (zoomIntermediate st scale x).lastBarRightSideDiffBarCount) :
    |coordinateToFloatIndex (zoom st scale (some x)).1 x - coordinateToFloatIndex st x|
      ≤ 1/1000000 := by
  rw [zoom_accepted st scale x hz (not_lt.2 h1) (not_lt.2 h2) h3,
    c2f_refresh_adjust (zoomIntermediate st scale x) x, clampDiff_eq hcl hcr,
    setCrosshairRefresh_dataList, adjustVisibleRange_dataList,
    zoomIntermediate_dataList, zoomIntermediate_totalBarSpace, zoomIntermediate_barSpace,
    zoomIntermediate_diff]
  have hmid : coordinateToFloatIndex
      { st with barSpace := st.barSpace + scale * (st.barSpace / 10) } x =
      jsRound6 (((st.dataList.length : ℤ) : ℚ) + st.lastBarRightSideDiffBarCount -
        (st.totalBarSpace - x) / (st.barSpace + scale * (st.barSpace / 10))) := rfl
  rw [hmid]
  have harg : ((st.dataList.length : ℤ) : ℚ) +
      (st.lastBarRightSideDiffBarCount +
        (coordinateToFloatIndex st x -
          jsRound6 (((st.dataList.length : ℤ) : ℚ) + st.lastBarRightSideDiffBarCount -
            (st.totalBarSpace - x) / (st.barSpace + scale * (st.barSpace / 10))))) -
      (st.totalBarSpace - x) / (st.barSpace + scale * (st.barSpace / 10)) =
      coordinateToFloatIndex st x +
      ((((st.dataList.length : ℤ) : ℚ) + st.lastBarRightSideDiffBarCount -
          (st.totalBarSpace - x) / (st.barSpace + scale * (st.barSpace / 10))) -
        jsRound6 (((st.dataList.length : ℤ) : ℚ) + st.lastBarRightSideDiffBarCount -
          (st.totalBarSpace - x) / (st.barSpace + scale * (st.barSpace / 10)))) := by
    ring
  rw [harg]
  exact jsRound6_fix _ _ ⟨_, rfl⟩ (abs_sub_jsRound6 _)

/-- Witness for C7 (amended): a four-bar window at `barSpace = 10` in a
100-pixel viewport, right offset 0, zoomed in one step anchored at
`x = 50`; the adjusted offset −0.454545 stays inside the clamp bounds and
the float index under the anchor moves by at most 1e-6. -/
theorem zoom_anchor_witness :
    ({ sampleStore with
        dataList := List.replicate 4 ⟨1, 0, 0⟩
        totalBarSpace := 100
        lastBarRightSideDiffBarCount := 0 } : Store).zoomEnabled = true ∧
      (1 : ℚ) ≤ ({ sampleStore with
        dataList := List.replicate 4 ⟨1, 0, 0⟩
        totalBarSpace := 100
        lastBarRightSideDiffBarCount := 0 } : Store).barSpace +
          1 * (({ sampleStore with
            dataList := List.replicate 4 ⟨1, 0, 0⟩
            totalBarSpace := 100
            lastBarRightSideDiffBarCount := 0 } : Store).barSpace / 10) ∧
      ({ sampleStore with
        dataList := List.replicate 4 ⟨1, 0, 0⟩
        totalBarSpace := 100
        lastBarRightSideDiffBarCount := 0 } : Store).barSpace +
          1 * (({ sampleStore with
            dataList := List.replicate 4 ⟨1, 0, 0⟩
            totalBarSpace := 100
            lastBarRightSideDiffBarCount := 0 } : Store).barSpace / 10) ≤ 50 ∧
      |coordinateToFloatIndex
          (zoom { sampleStore with
            dataList := List.replicate 4 ⟨1, 0, 0⟩
            totalBarSpace := 100
            lastBarRightSideDiffBarCount := 0 } 1 (some 50)).1 50 -
        coordinateToFloatIndex { sampleStore with
          dataList := List.replicate 4 ⟨1, 0, 0⟩
          totalBarSpace := 100
          lastBarRightSideDiffBarCount := 0 } 50| ≤ 1/1000000 :=
  ⟨rfl, by norm_num [sampleStore], by norm_num [sampleStore],
    zoom_anchor _ 1 50 rfl (by norm_num [sampleStore]) (by norm_num [sampleStore])
      (by norm_num [sampleStore])
      (by
        rw [zoomIntermediate_diff]
        unfold maxRightOffsetBarCount leftMinBarCount
        norm_num [coordinateToFloatIndex, jsRound6, jsRound, zoomIntermediate, sampleStore])
      (by
        rw [zoomIntermediate_diff]
        unfold minRightOffsetBarCount rightMinBarCount
        norm_num [coordinateToFloatIndex, jsRound6, jsRound, zoomIntermediate, sampleStore])⟩

/-- C7 counterexample: a one-bar window at `barSpace = 10` in a 100-pixel
viewport with right offset 0, zoomed in one step anchored at `x = 0`.
The bar-space change to 11 is accepted, but the anchor-preserving offset
−0.909091 lies below the minimum right offset 0 and is clamped back to 0,
so the float index under the anchor jumps from −9 to −8.090909, far
beyond the rounding tolerance. -/
theorem zoom_anchor_counterexample :
    ({ sampleStore with
        dataList := [⟨1, 0, 0⟩]
        totalBarSpace := 100
        lastBarRightSideDiffBarCount := 0 } : Store).zoomEnabled = true ∧
      (zoom { sampleStore with
        dataList := [⟨1, 0, 0⟩]
        totalBarSpace := 100
        lastBarRightSideDiffBarCount := 0 } 1 (some 0)).1.barSpace = 11 ∧
      ({ sampleStore with
        dataList := [⟨1, 0, 0⟩]
        totalBarSpace := 100
        lastBarRightSideDiffBarCount := 0 } : Store).barSpace = 10 ∧
      ¬(|coordinateToFloatIndex
          (zoom { sampleStore with
            dataList := [⟨1, 0, 0⟩]
            totalBarSpace := 100
            lastBarRightSideDiffBarCount := 0 } 1 (some 0)).1 0 -
        coordinateToFloatIndex { sampleStore with
          dataList := [⟨1, 0, 0⟩]
          totalBarSpace := 100
          lastBarRightSideDiffBarCount := 0 } 0| ≤ 1/1000000) := by
  have hacc := zoom_accepted
    { sampleStore with
      dataList := [⟨1, 0, 0⟩]
      totalBarSpace := 100
      lastBarRightSideDiffBarCount := 0 } 1 0 rfl
    (by norm_num [sampleStore]) (by norm_num [sampleStore]) (by norm_num [sampleStore])
  refine ⟨rfl, ?_, by norm_num [sampleStore], ?_⟩
  · rw [hacc, setCrosshairRefresh_barSpace, adjustVisibleRange_barSpace,
      zoomIntermediate_barSpace]
    norm_num [sampleStore]
  · rw [hacc, c2f_refresh_adjust, setCrosshairRefresh_dataList, adjustVisibleRange_dataList,
      zoomIntermediate_dataList, zoomIntermediate_totalBarSpace, zoomIntermediate_barSpace]
    have hclamp : clampDiff (zoomIntermediate
        { sampleStore with
          dataList := [⟨1, 0, 0⟩]
          totalBarSpace := 100
          lastBarRightSideDiffBarCount := 0 } 1 0) = 0 := by
      unfold clampDiff maxRightOffsetBarCount minRightOffsetBarCount leftMinBarCount
        rightMinBarCount
      rw [zoomIntermediate_diff]
      norm_num [coordinateToFloatIndex, jsRound6, jsRound, zoomIntermediate, sampleStore]
    rw [hclamp]
    norm_num [coordinateToFloatIndex, jsRound6, jsRound, sampleStore, abs_le]

/-- The easing ratio stays in `(0.8, 1]` for a nonnegative argument. -/
theorem calcOptimalRatio_nonneg (s : ℝ) : 0 ≤ calcOptimalRatio s := by
  unfold calcOptimalRatio
  have ht0 : (0:ℝ) ≤ max 4 s - 4 := by
    have h := le_max_left (4:ℝ) s
    linarith
  have hat0 : 0 ≤ Real.arctan (max 4 s - 4) := by
    have h := Real.arctan_strictMono.monotone ht0
    rwa [Real.arctan_zero] at h
  have hatlt : Real.arctan (max 4 s - 4) < Real.pi / 2 := Real.arctan_lt_pi_div_two _
  have hpi : (0:ℝ) < Real.pi := Real.pi_pos
  have hdiv : Real.arctan (max 4 s - 4) / (Real.pi * 0.5) < 1 := by
    rw [div_lt_one (by positivity)]
    linarith
  have hdiv0 : 0 ≤ Real.arctan (max 4 s - 4) / (Real.pi * 0.5) := by positivity
  rw [mul_div_assoc]
  linarith

theorem calcGapBase_nonneg (s : ℝ) (hs1 : 1 ≤ s) : 0 ≤ calcGapBase s := by
  unfold calcGapBase
  have h1 : 0 ≤ ⌊s * calcOptimalRatio s⌋ :=
    Int.floor_nonneg.mpr (mul_nonneg (by linarith) (calcOptimalRatio_nonneg s))
  have h2 : 0 ≤ ⌊s⌋ := Int.floor_nonneg.mpr (by linarith)
  exact le_min h1 h2

/-- C4 (amended): for every bar space accepted by `setBarSpace` (in
`[1,50]`), the recomputed gap bar space is at least 1 pixel; it is odd
whenever the pre-adjustment gap is odd or the bar space is within two
pixels of it — the only case in which the source parity-adjusts.  For
larger bar spaces the gap can be even (see the counterexample at bar
space 20). -/
theorem gap_bar_space (s : ℝ) (hs1 : 1 ≤ s) (_hs2 : s ≤ 50) :
    1 ≤ calcOptimalBarSpace s ∧
      ((Odd (calcGapBase s) ∨ s ≤ (calcGapBase s : ℝ) + 2) →
        Odd (calcOptimalBarSpace s)) := by
  have hg0 : 0 ≤ calcGapBase s := calcGapBase_nonneg s hs1
  constructor
  · unfold calcOptimalBarSpace
    exact le_max_left _ _
  · intro hyp
    simp only [calcOptimalBarSpace]
    by_cases hpar : calcGapBase s % 2 = 0
    · have hle : s ≤ (calcGapBase s : ℝ) + 2 := by
        rcases hyp with hodd | hle
        · exact absurd (Int.odd_iff.mp hodd) (by omega)
        · exact hle
      rw [if_pos ⟨hpar, hle⟩]
      rcases lt_or_le (calcGapBase s) 2 with hlt | hge
      · have hzero : calcGapBase s = 0 := by omega
        rw [hzero]
        exact Int.odd_iff.mpr (by decide)
      · rw [max_eq_right (by omega : (1:ℤ) ≤ calcGapBase s - 1)]
        exact Int.odd_iff.mpr (by omega)
    · rw [if_neg (by tauto)]
      have hodd : Odd (calcGapBase s) := Int.odd_iff.mpr (by omega)
      rw [max_eq_right (by omega : (1:ℤ) ≤ calcGapBase s)]
      exact hodd

/-- Witness for C4 (amended) at the default bar space 10 (where the gap
base 8 is even and within two pixels of the bar space, so the gap is
parity-adjusted). -/
theorem gap_bar_space_witness :
    (1:ℝ) ≤ 10 ∧ (10:ℝ) ≤ 50 ∧
      (1 ≤ calcOptimalBarSpace 10 ∧
        ((Odd (calcGapBase 10) ∨ (10:ℝ) ≤ (calcGapBase 10 : ℝ) + 2) →
          Odd (calcOptimalBarSpace 10))) :=
  ⟨by norm_num, by norm_num, gap_bar_space 10 (by norm_num) (by norm_num)⟩

/-- C4 counterexample: at bar space 20 (accepted by `setBarSpace`) the
easing ratio is about 0.80794, the gap base is `min ⌊16.158…⌋ 20 = 16`,
and since `16 + 2 < 20` the parity adjustment does not fire: the
recomputed gap bar space is 16, an even number. -/
theorem gap_bar_space_counterexample :
    (1:ℝ) ≤ 20 ∧ (20:ℝ) ≤ 50 ∧ calcOptimalBarSpace 20 = 16 ∧
      ¬Odd (calcOptimalBarSpace 20) := by
  have hmax : max (4:ℝ) 20 - 4 = 16 := by norm_num
  have hy0 : 0 < Real.arctan ((16:ℝ)⁻¹) := by
    have h := Real.arctan_strictMono (show (0:ℝ) < (16:ℝ)⁻¹ by norm_num)
    rwa [Real.arctan_zero] at h
  have hylt : Real.arctan ((16:ℝ)⁻¹) < (16:ℝ)⁻¹ := by
    have h := Real.lt_tan hy0 (Real.arctan_lt_pi_div_two _)
    rwa [Real.tan_arctan] at h
  have hinv : Real.arctan ((16:ℝ)⁻¹) = Real.pi/2 - Real.arctan 16 :=
    Real.arctan_inv_of_pos (by norm_num)
  have hpi : (2:ℝ) ≤ Real.pi := Real.two_le_pi
  have hpi0 : (0:ℝ) < Real.pi := Real.pi_pos
  have ha_hi : Real.arctan (16:ℝ) < Real.pi/2 := Real.arctan_lt_pi_div_two _
  have ha_lo : 3 * Real.pi / 8 < Real.arctan (16:ℝ) := by
    have h1 : ((16:ℝ)⁻¹) < Real.pi / 8 := by
      rw [inv_eq_one_div]
      linarith
    linarith
  have hfloor : ⌊(20:ℝ) * calcOptimalRatio 20⌋ = 16 := by
    unfold calcOptimalRatio
    rw [hmax, Int.floor_eq_iff, mul_div_assoc]
    have h1 : Real.arctan 16 / (Real.pi * 0.5) < 1 := by
      rw [div_lt_one (by positivity)]
      linarith
    have h2 : 3/4 < Real.arctan 16 / (Real.pi * 0.5) := by
      rw [lt_div_iff₀ (by positivity)]
      linarith
    constructor
    · push_cast
      linarith
    · push_cast
      linarith
  have hbase : calcGapBase 20 = 16 := by
    unfold calcGapBase
    rw [hfloor]
    norm_num
  have h16 : calcOptimalBarSpace 20 = 16 := by
    simp only [calcOptimalBarSpace]
    rw [hbase]
    rw [if_neg (by norm_num)]
    norm_num
  refine ⟨by norm_num, by norm_num, h16, by rw [h16, Int.odd_iff]; decide⟩

theorem headBound_some_iff (bc : ℤ) (v : ℤ) (l : List TimeTick) :
    headBound bc (some v) l ↔ ∀ h ∈ l.head?, v + bc ≤ h.dataIndex := by
  cases l <;> simp [headBound]

theorem headBound_cons (bc : ℤ) (left : Option ℤ) (x : TimeTick) (l1 l2 : List TimeTick) :
    headBound bc left (x :: l1) ↔ headBound bc left (x :: l2) := by
  cases left <;> simp [headBound]

/-- Invariant of the merge loop: starting from a consecutively-spaced
coarser list whose head respects the last-pushed bound, every list the
pass produces is consecutively spaced and its head respects the same
bound. -/
theorem mergePass_spaced (bc : ℤ) :
    ∀ (cur prev : List TimeTick) (left : Option ℤ),
      List.Chain' (tickSpaced bc) prev → headBound bc left prev →
      List.Chain' (tickSpaced bc) (mergePass bc prev cur left) ∧
        headBound bc left (mergePass bc prev cur left) := by
  intro cur
  induction cur with
  | nil =>
    intro prev left h1 h2
    constructor <;> simpa [mergePass]
  | cons c cs ihc =>
    intro prev
    induction prev with
    | nil =>
      intro left h1 h2
      simp only [mergePass]
      by_cases hok : leftOkB bc left c.dataIndex = true
      · rw [if_pos hok]
        have hrec := ihc [] (some c.dataIndex) List.chain'_nil (by simp [headBound])
        constructor
        · exact List.chain'_cons'.mpr
            ⟨(headBound_some_iff bc c.dataIndex _).mp hrec.2, hrec.1⟩
        · cases left with
          | none => simp [headBound]
          | some l =>
            simp only [leftOkB, decide_eq_true_eq] at hok
            simp [headBound, hok]
      · rw [if_neg hok]
        exact ihc [] left List.chain'_nil (by cases left <;> simp [headBound])
    | cons p ps ihp =>
      intro left h1 h2
      simp only [mergePass]
      by_cases hlt : p.dataIndex < c.dataIndex
      · rw [if_pos hlt]
        obtain ⟨hhead, h1t⟩ := List.chain'_cons'.mp h1
        have h2t : headBound bc (some p.dataIndex) ps :=
          (headBound_some_iff bc p.dataIndex ps).mpr (fun y hy => hhead y hy)
        have hrec := ihp (some p.dataIndex) h1t h2t
        constructor
        · exact List.chain'_cons'.mpr
            ⟨(headBound_some_iff bc p.dataIndex _).mp hrec.2, hrec.1⟩
        · exact (headBound_cons bc left p _ ps).mpr h2
      · rw [if_neg hlt]
        by_cases hadm : bc ≤ p.dataIndex - c.dataIndex ∧ leftOkB bc left c.dataIndex = true
        · rw [if_pos hadm]
          have hpre : headBound bc (some c.dataIndex) (p :: ps) := by
            simp only [headBound, List.head?_cons]
            omega
          have hrec := ihc (p :: ps) (some c.dataIndex) h1 hpre
          constructor
          · exact List.chain'_cons'.mpr
              ⟨(headBound_some_iff bc c.dataIndex _).mp hrec.2, hrec.1⟩
          · cases left with
            | none => simp [headBound]
            | some l =>
              have hok := hadm.2
              simp only [leftOkB, decide_eq_true_eq] at hok
              simp [headBound, hok]
        · rw [if_neg hadm]
          exact ihc (p :: ps) left h1 h2

/-- Consecutive spacing implies pairwise spacing for a nonnegative
minimum distance. -/
theorem chain_spaced_pairwise {bc : ℤ} (hbc : 0 ≤ bc) {l : List TimeTick}
    (h : List.Chain' (tickSpaced bc) l) : List.Pairwise (tickSpaced bc) l := by
  haveI : IsTrans TimeTick (tickSpaced bc) := ⟨fun a b c hab hbc2 => by
    unfold tickSpaced at *
    omega⟩
  exact List.chain'_iff_pairwise.mp h

theorem adjustedTimeTickList_chain (bc : ℤ) (buckets : List (List TimeTick)) :
    List.Chain' (tickSpaced bc) (adjustedTimeTickList bc buckets) := by
  unfold adjustedTimeTickList
  suffices h : ∀ acc, List.Chain' (tickSpaced bc) acc →
      List.Chain' (tickSpaced bc)
        (List.foldl (fun acc bucket => mergePass bc acc bucket none) acc buckets) from
    h [] List.chain'_nil
  induction buckets with
  | nil =>
    intro acc h
    simpa
  | cons b bs ih =>
    intro acc h
    simp only [List.foldl_cons]
    exact ih _ (mergePass_spaced bc b acc none h (by simp [headBound])).1

/-- C6: any two ticks admitted into the visible label subset by
`_adjustVisibleRangeTimeTickList` have data indices at least the computed
minimum bar-count spacing
`ceil(max(ceil(totalBarSpace / 10), textWidth) / barSpace)` apart, for
every bucket classification, every visible range, nonnegative viewport
and label widths and positive bar space. -/
theorem visible_tick_spacing (totalBarSpace : ℚ) (textWidth : ℤ) (barSpace : ℚ)
    (_hT : 0 ≤ totalBarSpace) (hw : 0 ≤ textWidth) (hs : 0 < barSpace)
    (buckets : List (List TimeTick)) (fromIdx toIdx : ℤ) :
    List.Pairwise (tickSpaced (timeTickBarCount totalBarSpace textWidth barSpace))
      (visibleRangeTimeTickList (timeTickBarCount totalBarSpace textWidth barSpace)
        buckets fromIdx toIdx) := by
  have hbc : 0 ≤ timeTickBarCount totalBarSpace textWidth barSpace := by
    unfold timeTickBarCount
    apply Int.ceil_nonneg
    apply div_nonneg _ hs.le
    have h1 : (0:ℤ) ≤ max ⌈totalBarSpace / 10⌉ textWidth := le_trans hw (le_max_right _ _)
    exact_mod_cast h1
  unfold visibleRangeTimeTickList
  exact List.Pairwise.sublist (List.filter_sublist _)
    (chain_spaced_pairwise hbc (adjustedTimeTickList_chain _ buckets))

/-- Witness for C6 at a concrete classification: viewport width 100,
label width 50, bar space 10 (minimum spacing 5 bars), a day bucket at
indices 0 and 7 and a minute bucket at index 12, filtered to the range
`[0, 20]`. -/
theorem visible_tick_spacing_witness :
    (0:ℚ) ≤ 100 ∧ (0:ℤ) ≤ 50 ∧ (0:ℚ) < 10 ∧
      List.Pairwise (tickSpaced (timeTickBarCount 100 50 10))
        (visibleRangeTimeTickList (timeTickBarCount 100 50 10)
          [[⟨86400, 0, 0⟩, ⟨86400, 7, 700⟩], [⟨60, 12, 1200⟩]] 0 20) :=
  ⟨by norm_num, by norm_num, by norm_num,
    visible_tick_spacing 100 50 10 (by norm_num) (by norm_num) (by norm_num)
      [[⟨86400, 0, 0⟩, ⟨86400, 7, 700⟩], [⟨60, 12, 1200⟩]] 0 20⟩

theorem count_filter_ne (l : List ℕ) (k : ℕ) :
    (l.filter (fun x => x ≠ k)).count k = 0 := by
  rw [List.count_eq_zero]
  intro hmem
  rw [List.mem_filter] at hmem
  simp at hmem

/-- C9 (amended): when both submissions for the same key happen before the
scheduler starts the first task, the second supersedes the first and
exactly one completion notification is delivered for that key on drain.
If the first task is already in flight when the second is submitted, the
in-flight run is not cancelled and also completes, giving two
notifications (see the counterexample), as the spec itself notes in its
design notes on stale completions. -/
theorem task_dedup (ts : TaskSchedulerState) (k : ℕ)
    (_hq : ts.queued.count k = 0) (hi : ts.inflight.count k = 0) :
    (drainCompletions (addTask (addTask ts k) k)).count k = 1 := by
  unfold drainCompletions addTask
  simp only [List.count_append, List.filter_append, hi]
  rw [count_filter_ne]
  simp

/-- C9 counterexample: submit a task for key 0, let the scheduler start
it, and submit for the same key again before the first resolves; draining
delivers two completion notifications for the key, not one. -/
theorem task_dedup_counterexample :
    (drainCompletions (addTask (startFirstTask (addTask ⟨[], []⟩ 0)) 0)).count 0 = 2 ∧
      (2 : ℕ) ≠ 1 := by
  constructor
  · decide
  · decide

/-- Witness for C9 (amended) starting from the empty scheduler. -/
theorem task_dedup_witness :
    (⟨[], []⟩ : TaskSchedulerState).queued.count 0 = 0 ∧
      (⟨[], []⟩ : TaskSchedulerState).inflight.count 0 = 0 ∧
      (drainCompletions (addTask (addTask ⟨[], []⟩ 0) 0)).count 0 = 1 :=
  ⟨by decide, by decide, task_dedup ⟨[], []⟩ 0 (by decide) (by decide)⟩

end KLineChart
